import Mathlib

/-!
Shallow embedding of the memory MCP server (Go).

Lexical variant (`src/main.go`): a `MemoryStore` holding a BoltDB bucket
(modelled as an association list from id to record) and a Bleve index
(modelled as an association list from id to the indexed document).
Bleve's default index mapping indexes Go struct fields under their `json`
tag names, so the `Memory` struct is indexed under the field names
"content", "type", "tags" (see `indexedFields`).  Bolt's `Bucket.Delete`
returns nil when the key is absent, and Bleve's `Index.Delete` likewise
succeeds on an unindexed id; both are modelled as total removals.

Semantic variant (`src/unnamed/part_000`, `part_001`): a chromem collection
of documents with embeddings obtained from an external provider.  The
provider call is a parameter (`String -> Except String (List Int)`); the
numeric contents of embeddings are irrelevant to the claims, so vectors are
modelled as `List Int`.

Go error returns are modelled as `Except String`; points where library I/O
can fail (Bolt put, Bleve index upsert) take an explicit `Except String Unit`
parameter injecting the library's result.  Timestamps (`time.Now().UnixNano()`)
are `Nat` parameters.
-/

deriving instance DecidableEq for Except

/-- Association-list lookup, first match wins (Bolt bucket `Get`). -/
def assocLookup {α : Type} (k : String) : List (String × α) → Option α
  | [] => none
  | (k2, v) :: rest => if k2 = k then some v else assocLookup k rest

/-- Association-list insert-or-replace (Bolt bucket `Put`, Bleve `Index`). -/
def assocPut {α : Type} (k : String) (v : α) : List (String × α) → List (String × α)
  | [] => [(k, v)]
  | (k2, v2) :: rest => if k2 = k then (k, v) :: rest else (k2, v2) :: assocPut k v rest

/-- Association-list removal (Bolt bucket `Delete`, Bleve index `Delete`);
succeeds whether or not the key is present, as both libraries do. -/
def assocDelete {α : Type} (k : String) (l : List (String × α)) : List (String × α) :=
  l.filter (fun e => e.1 != k)

/-- `Memory` record from `src/main.go` (Go fields `ID`, `Content`, `Type`,
`Tags`, `CreatedAt`, `UpdatedAt`, with json tags `id`, `content`, `type`,
`tags`, `created_at`, `updated_at`). -/
structure Memory where
  id : String
  content : String
  memType : String
  tags : List String
  createdAt : Nat
  updatedAt : Nat
deriving Repr, DecidableEq

/-- `MemoryStore` from `src/main.go`: the BoltDB bucket `memories` (`db`)
and the Bleve index (`index`, storing the document indexed under each id). -/
structure MemoryStore where
  db : List (String × Memory)
  index : List (String × Memory)
deriving Repr, DecidableEq

/-- The id assigned by `Add`: `fmt.Sprintf("mem_%d", time.Now().UnixNano())`. -/
def memIdOf (nowNano : Nat) : String :=
  "mem_" ++ Nat.repr nowNano

/-- The standard analyzer of Bleve's default mapping: lowercase and split
into tokens (word boundaries modelled as spaces). -/
def tokenize (s : String) : List String :=
  (s.toLower.splitOn " ").filter (fun t => t != "")

/-- The fields under which Bleve's default mapping indexes a `Memory`
document.  Bleve resolves struct field names through the `json` struct tag
(`DocumentMapping.StructTagKey` defaults to "json"), so the indexed field
names are the lowercase json tags, not the Go field names.  The two
datetime fields are indexed as dates, not text terms, and are omitted. -/
def indexedFields (m : Memory) : List (String × List String) :=
  [("id", tokenize m.id),
   ("content", tokenize m.content),
   ("type", tokenize m.memType),
   ("tags", m.tags.flatMap tokenize)]

/-- Terms indexed under a given field name for a document (empty when the
queried field name was never indexed). -/
def fieldTerms (m : Memory) (field : String) : List String :=
  match assocLookup field (indexedFields m) with
  | some ts => ts
  | none => []

/-- The atomic queries built by `MemoryStore.Search`: a match query over a
named field (Bleve `NewMatchQuery` + `SetField`) and an exact term query
over a named field (Bleve `NewTermQuery` + `SetField`). -/
inductive BleveAtom where
  | matchQ (field : String) (q : String)
  | termQ (field : String) (t : String)
deriving Repr, DecidableEq

/-- The composite query shapes `MemoryStore.Search` constructs: one atom,
a conjunction of atoms (`NewConjunctionQuery`), or `NewMatchAllQuery`. -/
inductive BleveQuery where
  | atom (a : BleveAtom)
  | conjunction (qs : List BleveAtom)
  | matchAll
deriving Repr, DecidableEq

/-- Bleve match semantics for an atom against an indexed document.  A match
query analyzes its text and matches when any resulting token occurs among
the field's indexed terms (default OR operator); a term query matches when
the raw term occurs among the field's indexed terms. -/
def matchesAtom : BleveAtom → Memory → Bool
  | BleveAtom.matchQ f q, m => (tokenize q).any (fun t => (fieldTerms m f).contains t)
  | BleveAtom.termQ f t, m => (fieldTerms m f).contains t

/-- Bleve match semantics for the composite query. -/
def matchesQuery : BleveQuery → Memory → Bool
  | BleveQuery.atom a, m => matchesAtom a m
  | BleveQuery.conjunction qs, m => qs.all (fun a => matchesAtom a m)
  | BleveQuery.matchAll, _ => true

/-- Query construction of `MemoryStore.Search` (src/main.go lines 134-162):
a match query on field "Content" when the query string is non-empty, one
term query on field "Tags" per tag, a single atom passed through alone, a
conjunction when there are several, match-all when there are none. -/
def buildQuery (queryString : String) (tags : List String) : BleveQuery :=
  let queries :=
    (if queryString = "" then [] else [BleveAtom.matchQ "Content" queryString])
      ++ tags.map (fun t => BleveAtom.termQ "Tags" t)
  match queries with
  | [] => BleveQuery.matchAll
  | [q] => BleveQuery.atom q
  | qs => BleveQuery.conjunction qs

/-- Bleve index search: ids of the matching indexed documents, truncated to
the request `Size`.  Hit order is Bleve-internal (by score); it is modelled
as index order, and no proved statement depends on the order. -/
def bleveSearch (index : List (String × Memory)) (q : BleveQuery) (size : Nat) :
    List String :=
  ((index.filter (fun e => matchesQuery q e.2)).map (fun e => e.1)).take size

/-- `MemoryStore.Add` (src/main.go lines 101-130).  `putRes` injects the
result of the Bolt `Update` transaction, `idxRes` the result of
`index.Index`; on a put failure nothing is written, on an index failure the
record is in the bucket but not the index, and both failures return the
wrapped error. -/
def MemoryStore.Add (ms : MemoryStore) (content memType : String) (tags : List String)
    (nowNano : Nat) (putRes idxRes : Except String Unit) :
    Except String String × MemoryStore :=
  let memory : Memory :=
    { id := memIdOf nowNano, content := content, memType := memType, tags := tags,
      createdAt := nowNano, updatedAt := nowNano }
  match putRes with
  | Except.error e => (Except.error ("failed to save memory: " ++ e), ms)
  | Except.ok _ =>
    let ms1 : MemoryStore := { ms with db := assocPut memory.id memory ms.db }
    match idxRes with
    | Except.error e => (Except.error ("failed to index memory: " ++ e), ms1)
    | Except.ok _ =>
      (Except.ok memory.id, { ms1 with index := assocPut memory.id memory ms1.index })

/-- `MemoryStore.Search` (src/main.go lines 133-190): build the query, run
it with `Size = 100`, then hydrate each hit id from the bucket, silently
skipping ids whose `Get` returns nil (and ids whose stored bytes fail to
unmarshal, which cannot happen in the model since the bucket stores records). -/
def MemoryStore.Search (ms : MemoryStore) (queryString : String) (tags : List String) :
    Except String (List Memory) :=
  let hits := bleveSearch ms.index (buildQuery queryString tags) 100
  Except.ok (hits.filterMap (fun id => assocLookup id ms.db))

/-- `MemoryStore.Delete` (src/main.go lines 193-209): Bolt `Delete` (a
no-op returning nil when the key is absent), then Bleve `Delete` (likewise
error-free on an unindexed id); returns ok in every case. -/
def MemoryStore.Delete (ms : MemoryStore) (id : String) :
    Except String Unit × MemoryStore :=
  (Except.ok (), { db := assocDelete id ms.db, index := assocDelete id ms.index })

/-- `NewMemoryStore` (src/main.go lines 38-90).  `existingIndex` is the
result of `bleve.Open`: `some idx` when the index artifact opens, `none`
when it cannot be opened, in which case a fresh index is created and every
record of the bucket is indexed under its `ID` field. -/
def NewMemoryStore (dbContents : List (String × Memory))
    (existingIndex : Option (List (String × Memory))) : Except String MemoryStore :=
  match existingIndex with
  | some idx => Except.ok { db := dbContents, index := idx }
  | none =>
    Except.ok { db := dbContents, index := dbContents.map (fun e => (e.2.id, e.2)) }

/-- Argument values of the tool-invocation boundary (the result of Go's
`interface{}` JSON decoding, restricted to the shapes the handlers test). -/
inductive JsonVal where
  | str (s : String)
  | num (n : Int)
  | arr (xs : List JsonVal)
  | boolean (b : Bool)
  | null
deriving Repr

/-- Lookup of `request.Params.Arguments[name]`. -/
def lookupArg (name : String) (args : List (String × JsonVal)) : Option JsonVal :=
  assocLookup name args

/-- The string inside a `JsonVal` when it is one (Go type assertion `.(string)`). -/
def jsonStr : JsonVal → Option String
  | JsonVal.str s => some s
  | _ => none

/-- Tag extraction shared by the lexical handlers: a `[]interface{}`
argument keeps its string elements and drops everything else; any other
shape yields no tags. -/
def tagsOfArg (v : Option JsonVal) : List String :=
  match v with
  | some (JsonVal.arr ts) => ts.filterMap jsonStr
  | _ => []

/-- Result of an MCP tool call: `mcp.NewToolResultText` or
`mcp.NewToolResultError`. -/
inductive ToolResult where
  | text (s : String)
  | error (s : String)
deriving Repr, DecidableEq

/-- Whether the "type" argument is absent or not a string, i.e. the Go type
assertion `Arguments["type"].(string)` fails. -/
def typeArgNotString (args : List (String × JsonVal)) : Bool :=
  match lookupArg "type" args with
  | some (JsonVal.str _) => false
  | _ => true

/-- The `add_memory` handler of the lexical variant (src/main.go lines
243-269): "content" must be a string, "type" falls back to "fact" when the
type assertion fails, "tags" keeps the string elements of an array. -/
def addMemoryToolHandler (args : List (String × JsonVal)) (ms : MemoryStore)
    (nowNano : Nat) (putRes idxRes : Except String Unit) : ToolResult × MemoryStore :=
  match lookupArg "content" args with
  | some (JsonVal.str content) =>
    let memType :=
      match lookupArg "type" args with
      | some (JsonVal.str t) => t
      | _ => "fact"
    let tags := tagsOfArg (lookupArg "tags" args)
    match ms.Add content memType tags nowNano putRes idxRes with
    | (Except.ok id, ms2) => (ToolResult.text ("Memory stored with ID: " ++ id), ms2)
    | (Except.error e, ms2) => (ToolResult.error e, ms2)
  | _ => (ToolResult.error "content must be a string", ms)

/-- One line pair of the search response (src/main.go lines 304-307);
Go renders `Tags` with `%v`, modelled as the list `Repr`. -/
def formatMemoryLine (i : Nat) (m : Memory) : String :=
  "[" ++ Nat.repr (i + 1) ++ "] " ++ m.content ++ "\n   Type: " ++ m.memType
    ++ ", Tags: " ++ toString (repr m.tags) ++ "\n\n"

/-- Response assembly of the `search_memory` handler (src/main.go lines
303-311): concatenated numbered lines, or the fallback text when empty. -/
def formatSearchResults (results : List Memory) : String :=
  let response := String.join ((results.enum).map (fun p => formatMemoryLine p.1 p.2))
  if response = "" then "No matching memories found." else response

/-- The `search_memory` handler of the lexical variant (src/main.go lines
283-314): reads only "query" (string, else empty) and "tags" (array of
strings, else empty); every other argument — including any "limit" — is
ignored. -/
def searchToolHandler (args : List (String × JsonVal)) (ms : MemoryStore) : ToolResult :=
  let queryString :=
    match lookupArg "query" args with
    | some (JsonVal.str q) => q
    | _ => ""
  let tags := tagsOfArg (lookupArg "tags" args)
  match ms.Search queryString tags with
  | Except.error e => ToolResult.error e
  | Except.ok results => ToolResult.text (formatSearchResults results)

/-- The `delete_memory` handler of the lexical variant (src/main.go lines
325-336). -/
def deleteToolHandler (args : List (String × JsonVal)) (ms : MemoryStore) :
    ToolResult × MemoryStore :=
  match lookupArg "id" args with
  | some (JsonVal.str id) =>
    match ms.Delete id with
    | (Except.ok _, ms2) => (ToolResult.text ("Memory " ++ id ++ " deleted successfully"), ms2)
    | (Except.error e, ms2) => (ToolResult.error e, ms2)
  | _ => (ToolResult.error "id must be a string", ms)

/-- chromem `Document` of the semantic variant (src/unnamed/part_000 lines
119-125); embedding values are irrelevant to the claims, modelled as
`List Int`. -/
structure ChromemDoc where
  id : String
  metadata : List (String × String)
  embedding : List Int
  content : String
deriving Repr, DecidableEq

/-- `MemoryServer.generateEmbedding` (src/unnamed/part_000 lines 37-56):
one call to the external provider with the single text, wrapping a provider
failure as the "error creating embedding" error. -/
def generateEmbedding (provider : String → Except String (List Int)) (text : String) :
    Except String (List Int) :=
  match provider text with
  | Except.error e => Except.error ("error creating embedding: " ++ e)
  | Except.ok emb => Except.ok emb

/-- The `add_memory` handler of the semantic variant (src/unnamed/part_000
lines 102-134): validate "content", read optional "metadata", generate the
embedding (returning the wrapped failure with the collection untouched when
the provider fails), then add the document to the collection. -/
def semAddMemoryHandler (provider : String → Except String (List Int))
    (args : List (String × JsonVal)) (nowNano : Nat) (coll : List ChromemDoc) :
    ToolResult × List ChromemDoc :=
  match lookupArg "content" args with
  | some (JsonVal.str content) =>
    let metadata :=
      match lookupArg "metadata" args with
      | some (JsonVal.str m) => m
      | _ => ""
    match generateEmbedding provider content with
    | Except.error e =>
      (ToolResult.error ("failed to generate embedding: " ++ e), coll)
    | Except.ok emb =>
      let doc : ChromemDoc :=
        { id := memIdOf nowNano, metadata := [("raw_metadata", metadata)],
          embedding := emb, content := content }
      (ToolResult.text ("Memory stored with ID: " ++ doc.id), coll ++ [doc])
  | _ => (ToolResult.error "content must be a string", coll)

/-! ### Helper lemmas -/

theorem assocLookup_mem {α : Type} {k : String} {v : α} :
    ∀ {l : List (String × α)}, assocLookup k l = some v → (k, v) ∈ l := by
  intro l
  induction l with
  | nil => intro h; simp [assocLookup] at h
  | cons e rest ih =>
    intro h
    obtain ⟨k2, v2⟩ := e
    by_cases he : k2 = k
    · subst he
      have hv : v2 = v := by simpa [assocLookup] using h
      subst hv
      exact List.mem_cons_self _ _
    · refine List.mem_cons.mpr (Or.inr (ih ?_))
      simpa [assocLookup, he] using h

theorem assocLookup_put_self {α : Type} (k : String) (v : α) :
    ∀ (l : List (String × α)), assocLookup k (assocPut k v l) = some v := by
  intro l
  induction l with
  | nil => simp [assocPut, assocLookup]
  | cons e rest ih =>
    by_cases he : e.1 = k
    · simp [assocPut, he, assocLookup]
    · simpa [assocPut, he, assocLookup] using ih

theorem not_mem_assocDelete {α : Type} (k : String) (v : α) (l : List (String × α)) :
    (k, v) ∉ assocDelete k l := by
  intro hmem
  have := (List.mem_filter.mp hmem).2
  simp at this

/-! ### Injectivity of the decimal id rendering

`fmt.Sprintf("mem_%d", nano)` is modelled with `Nat.repr`; the following
establishes that it is injective, through the decimal value of the digit
list produced by `Nat.toDigitsCore`. -/

/-- Left fold computing the decimal value of a digit-character list,
starting from accumulator `i`. -/
def valFrom (i : Nat) : List Char → Nat
  | [] => i
  | c :: cs => valFrom (i * 10 + (c.toNat - 48)) cs

theorem digitChar_toNat_sub (m : Nat) (h : m < 10) :
    (Nat.digitChar m).toNat - 48 = m := by
  interval_cases m <;> rfl

theorem valFrom_toDigitsCore :
    ∀ (fuel n : Nat) (ds : List Char), n < fuel →
      valFrom 0 (Nat.toDigitsCore 10 fuel n ds) = valFrom n ds := by
  intro fuel
  induction fuel with
  | zero => intro n ds h; exact absurd h (Nat.not_lt_zero n)
  | succ f ih =>
    intro n ds h
    have hm : n % 10 < 10 := Nat.mod_lt _ (by omega)
    by_cases h10 : n / 10 = 0
    · have hns : n < 10 := by omega
      have hnm : n % 10 = n := by omega
      simp only [Nat.toDigitsCore, h10, if_pos]
      show valFrom (0 * 10 + ((Nat.digitChar (n % 10)).toNat - 48)) ds = valFrom n ds
      rw [digitChar_toNat_sub _ hm, hnm, Nat.zero_mul, Nat.zero_add]
    · have hlt : n / 10 < f := by
        have : n / 10 < n := Nat.div_lt_self (by omega) (by omega)
        omega
      simp only [Nat.toDigitsCore, h10, if_neg, if_false]
      rw [ih (n / 10) (Nat.digitChar (n % 10) :: ds) hlt]
      show valFrom ((n / 10) * 10 + ((Nat.digitChar (n % 10)).toNat - 48)) ds = valFrom n ds
      rw [digitChar_toNat_sub _ hm]
      have : n / 10 * 10 + n % 10 = n := by omega
      rw [this]

theorem natRepr_inj {m n : Nat} (h : Nat.repr m = Nat.repr n) : m = n := by
  have hd : Nat.toDigitsCore 10 (m + 1) m [] = Nat.toDigitsCore 10 (n + 1) n [] := by
    have := congrArg String.data h
    simpa [Nat.repr, Nat.toDigits, List.asString] using this
  have hm := valFrom_toDigitsCore (m + 1) m [] (Nat.lt_succ_self m)
  have hn := valFrom_toDigitsCore (n + 1) n [] (Nat.lt_succ_self n)
  rw [hd] at hm
  exact hm.symm.trans hn

theorem memIdOf_inj (t1 t2 : Nat) : memIdOf t1 = memIdOf t2 ↔ t1 = t2 := by
  constructor
  · intro h
    apply natRepr_inj
    apply String.ext
    have := congrArg String.data h
    simp only [memIdOf, String.data_append] at this
    exact List.append_cancel_left this
  · intro h; rw [h]

/-! ### Concrete states used by counterexamples and witnesses -/

/-- A successful `Add` (both library calls return nil), keeping the new state. -/
def addOk (ms : MemoryStore) (content memType : String) (tags : List String)
    (nowNano : Nat) : MemoryStore :=
  (ms.Add content memType tags nowNano (Except.ok ()) (Except.ok ())).2

/-- Store with five records, built by five successful adds at nanoseconds 1..5. -/
def msFive : MemoryStore :=
  addOk (addOk (addOk (addOk (addOk (MemoryStore.mk [] []) "alpha" "fact" [] 1)
    "beta" "fact" [] 2) "gamma" "fact" [] 3) "delta" "fact" [] 4) "epsilon" "fact" [] 5

/-- Store with three records tagged {a}, {b}, {a,b}. -/
def msTags3 : MemoryStore :=
  addOk (addOk (addOk (MemoryStore.mk [] []) "first" "fact" ["a"] 1)
    "second" "fact" ["b"] 2) "third" "fact" ["a", "b"] 3

/-- The first record of `msFive`. -/
def memAlpha : Memory :=
  { id := "mem_1", content := "alpha", memType := "fact", tags := [],
    createdAt := 1, updatedAt := 1 }

/-- The surviving record of `msDangling`. -/
def memKept : Memory :=
  { id := "mem_1", content := "kept record", memType := "fact", tags := [],
    createdAt := 1, updatedAt := 1 }

/-- A record sitting only in the index (dangling reference). -/
def memGhost : Memory :=
  { id := "x", content := "ghost", memType := "fact", tags := [],
    createdAt := 0, updatedAt := 0 }

/-- Two adds, then the second record removed from the Record Store only, so
its index entry dangles (the artificial state of the spec's isolation test). -/
def msDangling : MemoryStore :=
  let ms2 := addOk (addOk (MemoryStore.mk [] []) "kept record" "fact" [] 1)
    "removed record" "fact" [] 2
  { ms2 with db := assocDelete "mem_2" ms2.db }

/-! ### Claims -/

/-- C1 counterexample: deleting an id absent from the Record Store returns
ok, not NotFound, and does mutate the index (a dangling entry under that id
is removed); deleting an existing record twice yields ok then ok, never
NotFound. -/
theorem delete_absent_returns_ok :
    ((MemoryStore.mk [] [("x", memGhost)]).Delete "x").1 = Except.ok () ∧
    ((MemoryStore.mk [] [("x", memGhost)]).Delete "x").2.index = [] ∧
    ((((addOk (MemoryStore.mk [] []) "a" "fact" [] 1).Delete "mem_1").2.Delete
        "mem_1").1 = Except.ok ()) := by decide

/-- C1 (amended): `Delete` always returns ok — Bolt's bucket delete and
Bleve's index delete both succeed on an absent id — so deleting twice in a
row yields ok then ok; after a delete the id is in neither store nor index. -/
theorem delete_total_ok (ms : MemoryStore) (id : String) :
    (ms.Delete id).1 = Except.ok () ∧
    ((ms.Delete id).2.Delete id).1 = Except.ok () ∧
    (∀ m : Memory, (id, m) ∉ (ms.Delete id).2.db) ∧
    (∀ m : Memory, (id, m) ∉ (ms.Delete id).2.index) := by
  exact ⟨rfl, rfl, fun m => not_mem_assocDelete id m ms.db,
    fun m => not_mem_assocDelete id m ms.index⟩

/-- C2 counterexample: two adds observing the same nanosecond timestamp are
assigned the same id `mem_5`; uniqueness fails under rapid successive
creation when the clock reading repeats. -/
theorem add_same_nano_same_id :
    ((MemoryStore.mk [] []).Add "first content" "fact" [] 5
        (Except.ok ()) (Except.ok ())).1 = Except.ok "mem_5" ∧
    (((MemoryStore.mk [] []).Add "first content" "fact" [] 5
        (Except.ok ()) (Except.ok ())).2.Add "second content" "fact" [] 5
        (Except.ok ()) (Except.ok ())).1 = Except.ok "mem_5" := by decide

/-- C2 (amended): the id assigned by `Add` is a pure function of the
nanosecond timestamp, so the ids of two successful adds are distinct if and
only if their timestamps are distinct; same-nanosecond adds collide. -/
theorem add_ids_distinct_iff_nano_distinct (ms1 ms2 : MemoryStore)
    (c1 k1 c2 k2 : String) (tg1 tg2 : List String) (t1 t2 : Nat) (id1 id2 : String)
    (h1 : (ms1.Add c1 k1 tg1 t1 (Except.ok ()) (Except.ok ())).1 = Except.ok id1)
    (h2 : (ms2.Add c2 k2 tg2 t2 (Except.ok ()) (Except.ok ())).1 = Except.ok id2) :
    id1 ≠ id2 ↔ t1 ≠ t2 := by
  have h1x : Except.ok (α := String) (memIdOf t1) = Except.ok id1 := h1
  have h2x : Except.ok (α := String) (memIdOf t2) = Except.ok id2 := h2
  injection h1x with e1
  injection h2x with e2
  rw [← e1, ← e2]
  exact not_congr (memIdOf_inj t1 t2)

theorem add_ids_distinct_iff_nano_distinct_witness :
    ("mem_1" : String) ≠ "mem_2" ↔ (1 : Nat) ≠ 2 :=
  add_ids_distinct_iff_nano_distinct (MemoryStore.mk [] []) (MemoryStore.mk [] [])
    "a" "fact" "b" "fact" [] [] 1 2 "mem_1" "mem_2" rfl rfl

/-- C3 counterexample: the lexical `search_memory` tool reads no "limit"
argument, so requesting limit 2 changes nothing, and a match-all search over
five stored records returns all five, not two. -/
theorem limit_two_not_honored :
    searchToolHandler [("limit", JsonVal.num 2)] msFive =
      searchToolHandler [] msFive ∧
    (msFive.Search "" []).map List.length = Except.ok 5 := by
  exact ⟨rfl, by decide⟩

/-- C3 (amended): every lexical search returns at most the fixed ceiling of
100 results (`searchRequest.Size = 100`), and the `search_memory` handler
depends only on the "query" and "tags" arguments — any requested per-call
limit is ignored rather than honored. -/
theorem search_clamped_limit_ignored :
    (∀ (ms : MemoryStore) (q : String) (tags : List String),
      ∃ l, ms.Search q tags = Except.ok l ∧ l.length ≤ 100) ∧
    (∀ (args1 args2 : List (String × JsonVal)) (ms : MemoryStore),
      lookupArg "query" args1 = lookupArg "query" args2 →
      lookupArg "tags" args1 = lookupArg "tags" args2 →
      searchToolHandler args1 ms = searchToolHandler args2 ms) := by
  constructor
  · intro ms q tags
    refine ⟨_, rfl, ?_⟩
    calc ((bleveSearch ms.index (buildQuery q tags) 100).filterMap
            (fun id => assocLookup id ms.db)).length
        ≤ (bleveSearch ms.index (buildQuery q tags) 100).length :=
          List.length_filterMap_le _ _
      _ ≤ 100 := by
          simp only [bleveSearch, List.length_take]
          exact Nat.min_le_left 100 _
  · intro a1 a2 ms hq ht
    unfold searchToolHandler
    rw [hq, ht]

theorem search_clamped_limit_ignored_witness :
    searchToolHandler [("query", JsonVal.str "x"), ("limit", JsonVal.num 2)] msFive =
      searchToolHandler [("query", JsonVal.str "x"), ("limit", JsonVal.num 1000)] msFive :=
  search_clamped_limit_ignored.2 _ _ msFive rfl rfl

/-- C4: tag search matches nothing.  The term queries target field "Tags"
(and the match query field "Content"), but Bleve's default mapping indexed
the record under the json tag names "tags"/"content", so the conjunction over
the three-record store returns no results instead of exactly the {a,b}
record — while the same store does hold its three records (match-all sees
them). -/
theorem tag_search_empty_on_field_mismatch :
    MemoryStore.Search msTags3 "" ["a", "b"] = Except.ok [] ∧
    MemoryStore.Search msTags3 "" ["a"] = Except.ok [] ∧
    (MemoryStore.Search msTags3 "" []).map List.length = Except.ok 3 := by decide

/-- C5: hydration silently skips ids the index returns that have no backing
record: search never errors, every returned record is present in the Record
Store, and on the artificial dangling state the dangling id `mem_2` is
omitted while the intact record is returned. -/
theorem search_skips_dangling_silently :
    (∀ (ms : MemoryStore) (q : String) (tags : List String) (l : List Memory)
      (m : Memory), ms.Search q tags = Except.ok l → m ∈ l →
        ∃ id, (id, m) ∈ ms.db) ∧
    msDangling.Search "" [] = Except.ok [memKept] := by
  constructor
  · intro ms q tags l m hok hm
    have hx : Except.ok ((bleveSearch ms.index (buildQuery q tags) 100).filterMap
        (fun id => assocLookup id ms.db)) = Except.ok l := hok
    injection hx with hl
    rw [← hl] at hm
    obtain ⟨id, _, hlook⟩ := List.mem_filterMap.mp hm
    exact ⟨id, assocLookup_mem hlook⟩
  · decide

theorem search_skips_dangling_silently_witness :
    ∃ id, (id, memKept) ∈ msDangling.db :=
  search_skips_dangling_silently.1 msDangling "" [] [memKept] memKept
    (by decide) (by decide)

/-- C6: in the semantic variant, a failing embedding-provider call makes
`add_memory` return the embedding error and leaves the collection exactly
as it was — the document is never constructed or added. -/
theorem embedding_failure_writes_nothing
    (provider : String → Except String (List Int)) (args : List (String × JsonVal))
    (c err : String) (nowNano : Nat) (coll : List ChromemDoc)
    (hc : lookupArg "content" args = some (JsonVal.str c))
    (hp : provider c = Except.error err) :
    semAddMemoryHandler provider args nowNano coll =
      (ToolResult.error
        ("failed to generate embedding: " ++ ("error creating embedding: " ++ err)),
        coll) := by
  unfold semAddMemoryHandler
  rw [hc]
  simp [generateEmbedding, hp]

/-- A provider whose call always fails (quota error). -/
def provFail : String → Except String (List Int) :=
  fun _ => Except.error "quota exceeded"

theorem embedding_failure_writes_nothing_witness :
    semAddMemoryHandler provFail [("content", JsonVal.str "hello")] 7 [] =
      (ToolResult.error
        ("failed to generate embedding: " ++
          ("error creating embedding: " ++ "quota exceeded")), []) :=
  embedding_failure_writes_nothing provFail [("content", JsonVal.str "hello")]
    "hello" "quota exceeded" 7 [] rfl rfl

/-- C7: when the Record Store write succeeds but the index upsert fails,
`Add` returns the wrapped index error (never a success); the record is in
the bucket (stored but not indexed) and the index is unchanged, and the
state is caller-visible through the error. -/
theorem add_index_failure_error_surfaced (ms : MemoryStore)
    (content memType : String) (tags : List String) (nowNano : Nat) (e : String) :
    (ms.Add content memType tags nowNano (Except.ok ()) (Except.error e)).1 =
      Except.error ("failed to index memory: " ++ e) ∧
    assocLookup (memIdOf nowNano)
        (ms.Add content memType tags nowNano (Except.ok ()) (Except.error e)).2.db =
      some { id := memIdOf nowNano, content := content, memType := memType,
             tags := tags, createdAt := nowNano, updatedAt := nowNano } ∧
    (ms.Add content memType tags nowNano (Except.ok ()) (Except.error e)).2.index =
      ms.index := by
  exact ⟨rfl, assocLookup_put_self _ _ ms.db, rfl⟩

/-- C8: with empty query text and no tags the built query is match-all,
every indexed document qualifies, and the search returns at most
min(number of indexed records, 100) records. -/
theorem empty_query_match_all (ms : MemoryStore) :
    buildQuery "" [] = BleveQuery.matchAll ∧
    (∀ e ∈ ms.index, matchesQuery (buildQuery "" []) e.2 = true) ∧
    ∃ l, ms.Search "" [] = Except.ok l ∧ l.length ≤ min ms.index.length 100 := by
  refine ⟨rfl, fun e _ => rfl, _, rfl, ?_⟩
  calc ((bleveSearch ms.index (buildQuery "" []) 100).filterMap
          (fun id => assocLookup id ms.db)).length
      ≤ (bleveSearch ms.index (buildQuery "" []) 100).length :=
        List.length_filterMap_le _ _
    _ ≤ min ms.index.length 100 := by
        simp only [bleveSearch, List.length_take, List.length_map]
        exact le_trans (min_le_min (le_refl 100) (List.length_filter_le _ _))
          (Nat.le_of_eq (Nat.min_comm 100 ms.index.length))

theorem empty_query_match_all_witness :
    matchesQuery (buildQuery "" []) memAlpha = true :=
  (empty_query_match_all msFive).2.1 ("mem_1", memAlpha) (by decide)

/-- C9: when the index artifact cannot be opened at startup, a fresh index
is created and every record of the Record Store is indexed under its id, so
every stored record has an index entry. -/
theorem startup_rebuild_indexes_all (db : List (String × Memory)) :
    ∃ ms, NewMemoryStore db none = Except.ok ms ∧ ms.db = db ∧
      ∀ e ∈ db, (e.2.id, e.2) ∈ ms.index := by
  refine ⟨_, rfl, rfl, ?_⟩
  intro e he
  exact List.mem_map.mpr ⟨e, he, rfl⟩

theorem startup_rebuild_indexes_all_witness :
    ∃ ms, NewMemoryStore [("mem_1", memAlpha)] none = Except.ok ms ∧
      ms.db = [("mem_1", memAlpha)] ∧
      ∀ e ∈ [("mem_1", memAlpha)], (e.2.id, e.2) ∈ ms.index :=
  startup_rebuild_indexes_all [("mem_1", memAlpha)]

/-- C10: in the lexical `add_memory` handler, when the "type" argument is
absent or not a string the record is stored with type "fact" and the call
succeeds. -/
theorem addTool_type_defaults_to_fact (args : List (String × JsonVal))
    (ms : MemoryStore) (nowNano : Nat) (c : String)
    (hc : lookupArg "content" args = some (JsonVal.str c))
    (ht : typeArgNotString args = true) :
    ∃ ms2, addMemoryToolHandler args ms nowNano (Except.ok ()) (Except.ok ()) =
      (ToolResult.text ("Memory stored with ID: " ++ memIdOf nowNano), ms2) ∧
      assocLookup (memIdOf nowNano) ms2.db =
        some { id := memIdOf nowNano, content := c, memType := "fact",
               tags := tagsOfArg (lookupArg "tags" args),
               createdAt := nowNano, updatedAt := nowNano } := by
  unfold addMemoryToolHandler
  rw [hc]
  unfold typeArgNotString at ht
  cases hty : lookupArg "type" args with
  | none => exact ⟨_, rfl, assocLookup_put_self _ _ _⟩
  | some v =>
    cases v with
    | str t =>
      rw [hty] at ht
      exact Bool.noConfusion ht
    | num n => exact ⟨_, rfl, assocLookup_put_self _ _ _⟩
    | arr xs => exact ⟨_, rfl, assocLookup_put_self _ _ _⟩
    | boolean b => exact ⟨_, rfl, assocLookup_put_self _ _ _⟩
    | null => exact ⟨_, rfl, assocLookup_put_self _ _ _⟩

theorem addTool_type_defaults_to_fact_witness :
    ∃ ms2, addMemoryToolHandler [("content", JsonVal.str "hi")]
        (MemoryStore.mk [] []) 7 (Except.ok ()) (Except.ok ()) =
      (ToolResult.text ("Memory stored with ID: " ++ memIdOf 7), ms2) ∧
      assocLookup (memIdOf 7) ms2.db =
        some { id := memIdOf 7, content := "hi", memType := "fact",
               tags := tagsOfArg (lookupArg "tags" [("content", JsonVal.str "hi")]),
               createdAt := 7, updatedAt := 7 } :=
  addTool_type_defaults_to_fact [("content", JsonVal.str "hi")]
    (MemoryStore.mk [] []) 7 "hi" rfl rfl
